import Mathlib

/-!
Verification development for the LLM filtering core of the exa-recruit
repository (src/exa_recruit/filter.py).

The Python code is shallowly embedded:
* Python objects decoded from JSON are modelled by `PyVal`.
* `json.loads` is modelled by `jsonLoads`, a recursive-descent JSON parser
  producing `PyVal` (numbers become `Int` or `ℚ`, objects keep a key/value
  list where lookups take the last binding, matching dict overwrite
  semantics for duplicate keys).
* `_parse_response` is modelled by `parseResponse`; Python exceptions are
  modelled with `Except String`.
* `_classify_one` is modelled by `classifyOne`, which consumes a trace of
  per-attempt network outcomes and records the back-off sleeps.
* `filter_candidates_async` is modelled by `filterCandidatesAsync` over an
  explicit credential environment and per-candidate traces; the
  semaphore-bounded scheduling is modelled separately by the small-step
  relation `SemStep`.
-/

namespace ExaRecruit

/-- Python objects that can result from `json.loads`. -/
inductive PyVal where
  | none
  | bool (b : Bool)
  | int (n : Int)
  | float (q : ℚ)
  | str (s : String)
  | list (xs : List PyVal)
  | dict (fields : List (String × PyVal))

/-- Characters stripped by Python `str.strip()` (ASCII whitespace). -/
def isPySpace (c : Char) : Bool :=
  c = ' ' || c = '\t' || c = '\n' || c = '\r' || c = '\x0b' || c = '\x0c'

def stripLeft (cs : List Char) : List Char := cs.dropWhile isPySpace

def stripRight (cs : List Char) : List Char :=
  (cs.reverse.dropWhile isPySpace).reverse

/-- Python `text.strip()` on the character list of a string. -/
def pyStripChars (cs : List Char) : List Char := stripRight (stripLeft cs)

def backtickChar : Char := Char.ofNat 96

def lbraceChar : Char := Char.ofNat 123

def rbraceChar : Char := Char.ofNat 125

/-- Python `text.startswith(". . .")` for a triple-backtick fence. -/
def fenceStart (cs : List Char) : Bool :=
  match cs with
  | a :: b :: c :: _ => a = backtickChar && b = backtickChar && c = backtickChar
  | _ => false

/-- Python `text.endswith(". . .")` for a triple-backtick fence. -/
def fenceEnd (cs : List Char) : Bool := fenceStart cs.reverse

/-- Python `text.split("\n", 1)[1]`: everything after the first newline. -/
def dropThroughNewline : List Char → List Char
  | [] => []
  | c :: rest => if c = '\n' then rest else dropThroughNewline rest

/-- Python `text[:-n]` for `n ≤ len(text)`: drop the last `n` characters. -/
def dropLastChars (n : Nat) (cs : List Char) : List Char :=
  (cs.reverse.drop n).reverse

def containsNewline (cs : List Char) : Bool := cs.contains '\n'

/-- The whitespace-trim and markdown-fence-stripping block at the start of
`_parse_response` (filter.py lines 99-105). -/
def normalizeText (text : String) : List Char :=
  let t0 := pyStripChars text.data
  if fenceStart t0 then
    let t1 := if containsNewline t0 then dropThroughNewline t0 else t0.drop 3
    let t2 := if fenceEnd t1 then dropLastChars 3 t1 else t1
    pyStripChars t2
  else t0

/-! ### A model of `json.loads` -/

def isJsonWs (c : Char) : Bool :=
  c = ' ' || c = '\t' || c = '\n' || c = '\r'

def skipWs (cs : List Char) : List Char := cs.dropWhile isJsonWs

def isDigitChar (c : Char) : Bool := '0' ≤ c && c ≤ '9'

def digitVal (c : Char) : Nat := c.toNat - '0'.toNat

def hexVal (c : Char) : Option Nat :=
  if isDigitChar c then some (digitVal c)
  else if 'a' ≤ c && c ≤ 'f' then some (c.toNat - 'a'.toNat + 10)
  else if 'A' ≤ c && c ≤ 'F' then some (c.toNat - 'A'.toNat + 10)
  else Option.none

def unescapeChar (c : Char) : Option Char :=
  match c with
  | '"' => some '"'
  | '\\' => some '\\'
  | '/' => some '/'
  | 'b' => some '\x08'
  | 'f' => some '\x0c'
  | 'n' => some '\n'
  | 'r' => some '\r'
  | 't' => some '\t'
  | _ => Option.none

/-- Body of a JSON string after the opening quote: returns the decoded
characters and the remainder after the closing quote. -/
def parseStringChars : List Char → Option (List Char × List Char)
  | [] => Option.none
  | '"' :: rest => some ([], rest)
  | '\\' :: 'u' :: a :: b :: c :: d :: rest =>
    match hexVal a, hexVal b, hexVal c, hexVal d with
    | some ha, some hb, some hc, some hd =>
      (parseStringChars rest).map
        (fun sr => (Char.ofNat (((ha * 16 + hb) * 16 + hc) * 16 + hd) :: sr.1, sr.2))
    | _, _, _, _ => Option.none
  | '\\' :: e :: rest =>
    match unescapeChar e with
    | some ch => (parseStringChars rest).map (fun sr => (ch :: sr.1, sr.2))
    | Option.none => Option.none
  | c :: rest => (parseStringChars rest).map (fun sr => (c :: sr.1, sr.2))

def takeDigits : List Char → (List Nat × List Char)
  | [] => ([], [])
  | c :: rest =>
    if isDigitChar c then
      let dr := takeDigits rest
      (digitVal c :: dr.1, dr.2)
    else ([], c :: rest)

def digitsToNat (ds : List Nat) : Nat := ds.foldl (fun a d => a * 10 + d) 0

/-- Assemble a JSON number: `int` when there is no fraction and no exponent,
`float` otherwise (matching the Python decoder). -/
def finishNumber (neg : Bool) (intDs fracDs : List Nat) (exp : Option Int)
    (rest : List Char) : Option (PyVal × List Char) :=
  match exp, fracDs with
  | Option.none, [] =>
    let n : Int := Int.ofNat (digitsToNat intDs)
    some (.int (if neg then -n else n), rest)
  | _, _ =>
    let e := (exp.getD 0)
    let n : Nat := digitsToNat (intDs ++ fracDs) * 10 ^ e.toNat
    let den : Nat := 10 ^ (fracDs.length + (-e).toNat)
    let q := mkRat (Int.ofNat n) den
    some (.float (if neg then -q else q), rest)

def parseExpDigits (neg : Bool) (cs : List Char) : Option (Int × List Char) :=
  let dr := takeDigits cs
  if dr.1.isEmpty then Option.none
  else
    let e : Int := Int.ofNat (digitsToNat dr.1)
    some (if neg then -e else e, dr.2)

def parseExpPart (cs : List Char) : Option (Int × List Char) :=
  match cs with
  | '+' :: rest => parseExpDigits false rest
  | '-' :: rest => parseExpDigits true rest
  | _ => parseExpDigits false cs

def parseNumberTail (neg : Bool) (intDs : List Nat) (cs : List Char) :
    Option (PyVal × List Char) :=
  let fr : List Nat × List Char :=
    match cs with
    | '.' :: cs2 => takeDigits cs2
    | _ => ([], cs)
  match cs, fr.1 with
  | '.' :: _, [] => Option.none
  | _, _ =>
    match fr.2 with
    | 'e' :: cs3 =>
      (parseExpPart cs3).bind (fun er => finishNumber neg intDs fr.1 (some er.1) er.2)
    | 'E' :: cs3 =>
      (parseExpPart cs3).bind (fun er => finishNumber neg intDs fr.1 (some er.1) er.2)
    | _ => finishNumber neg intDs fr.1 Option.none fr.2

def parseNumberAfterSign (neg : Bool) (cs : List Char) : Option (PyVal × List Char) :=
  match cs with
  | [] => Option.none
  | c :: _ =>
    if isDigitChar c then
      let ir := takeDigits cs
      if ir.1.length > 1 && ir.1.headD 1 = 0 then Option.none
      else parseNumberTail neg ir.1 ir.2
    else Option.none

mutual

def parseVal : Nat → List Char → Option (PyVal × List Char)
  | 0, _ => Option.none
  | Nat.succ fuel, cs =>
    match skipWs cs with
    | [] => Option.none
    | 't' :: 'r' :: 'u' :: 'e' :: rest => some (.bool true, rest)
    | 'f' :: 'a' :: 'l' :: 's' :: 'e' :: rest => some (.bool false, rest)
    | 'n' :: 'u' :: 'l' :: 'l' :: rest => some (.none, rest)
    | '"' :: rest => (parseStringChars rest).map (fun sr => (.str (String.mk sr.1), sr.2))
    | '[' :: rest => (parseItems fuel rest).map (fun vr => (.list vr.1, vr.2))
    | '-' :: rest => parseNumberAfterSign true rest
    | c :: rest =>
      if c = lbraceChar then (parseEntries fuel rest).map (fun er => (.dict er.1, er.2))
      else if isDigitChar c then parseNumberAfterSign false (c :: rest)
      else Option.none

def parseItems : Nat → List Char → Option (List PyVal × List Char)
  | 0, _ => Option.none
  | Nat.succ fuel, cs =>
    match skipWs cs with
    | ']' :: rest => some ([], rest)
    | cs1 => parseItemsRequired fuel cs1

def parseItemsRequired : Nat → List Char → Option (List PyVal × List Char)
  | 0, _ => Option.none
  | Nat.succ fuel, cs =>
    (parseVal fuel cs).bind (fun vr =>
      match skipWs vr.2 with
      | ',' :: r2 => (parseItemsRequired fuel r2).map (fun lr => (vr.1 :: lr.1, lr.2))
      | ']' :: r2 => some ([vr.1], r2)
      | _ => Option.none)

def parseEntries : Nat → List Char → Option (List (String × PyVal) × List Char)
  | 0, _ => Option.none
  | Nat.succ fuel, cs =>
    match skipWs cs with
    | c :: rest =>
      if c = rbraceChar then some ([], rest)
      else parseEntriesRequired fuel (c :: rest)
    | [] => Option.none

def parseEntriesRequired : Nat → List Char → Option (List (String × PyVal) × List Char)
  | 0, _ => Option.none
  | Nat.succ fuel, cs =>
    match skipWs cs with
    | '"' :: rest =>
      (parseStringChars rest).bind (fun kr =>
        match skipWs kr.2 with
        | ':' :: r2 =>
          (parseVal fuel r2).bind (fun vr =>
            match skipWs vr.2 with
            | ',' :: r3 =>
              (parseEntriesRequired fuel r3).map
                (fun er => ((String.mk kr.1, vr.1) :: er.1, er.2))
            | c :: r3 =>
              if c = rbraceChar then some ([(String.mk kr.1, vr.1)], r3)
              else Option.none
            | [] => Option.none)
        | _ => Option.none)
    | _ => Option.none

end

/-- Model of `json.loads`: parse one JSON value, allowing surrounding
whitespace and requiring the whole input to be consumed; `Option.none`
models `json.JSONDecodeError`. -/
def jsonLoads (cs : List Char) : Option PyVal :=
  match parseVal (cs.length + 8) cs with
  | some vr => if (skipWs vr.2).isEmpty then some vr.1 else Option.none
  | Option.none => Option.none

/-! ### Python coercions used by `_parse_response` -/

/-- Python truthiness, as used by `bool(x)` and by `if x:`. -/
def pyTruthy : PyVal → Bool
  | .none => false
  | .bool b => b
  | .int n => n != 0
  | .float q => q != 0
  | .str s => s != ""
  | .list xs => !xs.isEmpty
  | .dict kvs => !kvs.isEmpty

/-- Python `float(s)` on a string argument: optional sign, digits with an
optional decimal point and exponent, surrounded by optional whitespace. -/
def floatOfString (s : String) : Option ℚ :=
  let core := fun (neg : Bool) (cs : List Char) =>
    let ir := takeDigits cs
    let fr : List Nat × List Char :=
      match ir.2 with
      | '.' :: cs2 => takeDigits cs2
      | _ => ([], ir.2)
    if ir.1.isEmpty && fr.1.isEmpty then Option.none
    else
      let finishAt := fun (exp : Option Int) (rest : List Char) =>
        if rest.isEmpty then
          (finishNumber neg ir.1 fr.1 exp []).map (fun vr => vr.1)
        else Option.none
      match fr.2 with
      | 'e' :: cs3 => (parseExpPart cs3).bind (fun er => finishAt (some er.1) er.2)
      | 'E' :: cs3 => (parseExpPart cs3).bind (fun er => finishAt (some er.1) er.2)
      | rest => finishAt Option.none rest
  let q :=
    match pyStripChars s.data with
    | '-' :: cs => core true cs
    | '+' :: cs => core false cs
    | cs => core false cs
  q.bind (fun v =>
    match v with
    | .float r => some r
    | .int n => some (mkRat n 1)
    | _ => Option.none)

/-- Python `float(x)`; `Except.error` models the raised
`TypeError`/`ValueError`. -/
def pyFloat : PyVal → Except String ℚ
  | .bool b => .ok (if b then 1 else 0)
  | .int n => .ok (mkRat n 1)
  | .float q => .ok q
  | .str s =>
    match floatOfString s with
    | some q => .ok q
    | Option.none => .error "ValueError: could not convert string to float"
  | .none => .error "TypeError: float argument must be a string or a real number"
  | .list _ => .error "TypeError: float argument must be a string or a real number"
  | .dict _ => .error "TypeError: float argument must be a string or a real number"

def decimalDigits (n k : Nat) : String :=
  let s := toString n
  String.mk (List.replicate (k - s.length) '0') ++ s

/-- Best-effort model of `str(x)` for a Python float (decimal rendering). -/
def floatRepr (q : ℚ) : String :=
  let sign := if q < 0 then "-" else ""
  let a := if q < 0 then -q else q
  match (List.range 41).find? (fun k => (a * (10 : ℚ) ^ k).den == 1) with
  | some k =>
    let n := (a * (10 : ℚ) ^ k).num.toNat
    if k = 0 then sign ++ toString n ++ ".0"
    else sign ++ toString (n / 10 ^ k) ++ "." ++ decimalDigits (n % 10 ^ k) k
  | Option.none => sign ++ toString a.num ++ "/" ++ toString a.den

mutual

/-- Python `repr(x)` for JSON-decoded values. -/
def pyRepr : PyVal → String
  | .none => "None"
  | .bool b => if b then "True" else "False"
  | .int n => toString n
  | .float q => floatRepr q
  | .str s => "\x27" ++ s ++ "\x27"
  | .list xs => "[" ++ pyReprJoin xs ++ "]"
  | .dict kvs => "\x7b" ++ pyReprEntries kvs ++ "\x7d"

def pyReprJoin : List PyVal → String
  | [] => ""
  | [v] => pyRepr v
  | v :: rest => pyRepr v ++ ", " ++ pyReprJoin rest

def pyReprEntries : List (String × PyVal) → String
  | [] => ""
  | [(k, v)] => "\x27" ++ k ++ "\x27: " ++ pyRepr v
  | (k, v) :: rest => "\x27" ++ k ++ "\x27: " ++ pyRepr v ++ ", " ++ pyReprEntries rest

end

/-- Python `str(x)` for JSON-decoded values. -/
def pyStrOf : PyVal → String
  | .str s => s
  | v => pyRepr v

/-- The value bound to key `k`, taking the last binding (Python dicts built
by `json.loads` keep the last of duplicate keys). -/
def lookupLast (k : String) : List (String × PyVal) → Option PyVal
  | [] => Option.none
  | (k1, v) :: rest =>
    match lookupLast k rest with
    | some r => some r
    | Option.none => if k1 = k then some v else Option.none

/-- Python `data.get(k, default)` on a dict. -/
def pyDictGet (fields : List (String × PyVal)) (k : String) (default : PyVal) : PyVal :=
  (lookupLast k fields).getD default

/-- Embedding of the `FilterResult` dataclass (filter.py lines 15-23).
`match` is a Lean keyword, so the field is called `match'`. -/
structure FilterResult where
  match' : Bool
  confidence : ℚ
  reason : String
  current_company : PyVal := PyVal.none
  current_role : PyVal := PyVal.none
  graduation_year : Option String := Option.none

/-- The `FilterResult` built on `json.JSONDecodeError` (filter.py line 110). -/
def parseFailureResult : FilterResult :=
  ⟨false, 0, "Failed to parse LLM response", .none, .none, Option.none⟩

/-- The field coercions of `_parse_response` after `json.loads`
(filter.py lines 107-119).  `Except.error` models an uncaught Python
exception: `data.get` on a non-dict raises `AttributeError`, and `float`
raises on non-coercible values; neither is caught by `_parse_response`. -/
def coerceData : Option PyVal → Except String FilterResult
  | Option.none => .ok parseFailureResult
  | some (.dict d) =>
    match pyFloat (pyDictGet d "confidence" (.float 0)) with
    | .error e => .error e
    | .ok conf =>
      .ok ⟨pyTruthy (pyDictGet d "match" (.bool false)),
           conf,
           pyStrOf (pyDictGet d "reason" (.str "")),
           pyDictGet d "current_company" .none,
           pyDictGet d "current_role" .none,
           if pyTruthy (pyDictGet d "graduation_year" .none) then
             some (pyStrOf (pyDictGet d "graduation_year" .none))
           else Option.none⟩
  | some _ => .error "AttributeError: object has no attribute get"

/-- Embedding of `_parse_response` (filter.py lines 97-119). -/
def parseResponse (text : String) : Except String FilterResult :=
  coerceData (jsonLoads (normalizeText text))

/-! ### The classification worker `_classify_one` -/

/-- Outcome of one `client.chat.completions.create` call, abstracting the
network: the response text, `openai.RateLimitError`, or any other
exception. -/
inductive AttemptOutcome where
  | success (text : String)
  | rateLimit
  | apiError (msg : String)

/-- What one iteration of the retry loop in `_classify_one` produces before
the retry decision.  The `try` block covers both the request and
`_parse_response`, so a response whose parsing raises lands in the generic
`except Exception` branch (filter.py lines 135-157). -/
inductive AttemptRes where
  | ok (r : FilterResult)
  | fail (isRateLimit : Bool) (terminalReason : String)

def evalAttempt (o : AttemptOutcome) : AttemptRes :=
  match o with
  | .success t =>
    match parseResponse t with
    | .ok r => .ok r
    | .error e => .fail false ("API error: " ++ e)
  | .rateLimit => .fail true "Rate limited after retries"
  | .apiError m => .fail false ("API error: " ++ m)

/-- Result of running `_classify_one` on one candidate: the back-off sleeps
performed (in seconds), the number of attempts made, and the returned
`FilterResult`. -/
structure RunResult where
  sleeps : List Nat
  attempts : Nat
  verdict : FilterResult

/-- The retry loop of `_classify_one` (filter.py lines 134-159), reading
attempt outcomes from the trace `f`.  `rem` is the number of loop
iterations left; the `rem = 0` base case is the unreachable fallback after
the loop (line 159). -/
def classifyOneAux (f : Nat → AttemptOutcome) : Nat → Nat → RunResult
  | _, 0 => ⟨[], 0, ⟨false, 0, "Unknown error", .none, .none, Option.none⟩⟩
  | attempt, Nat.succ rem =>
    match evalAttempt (f attempt) with
    | .ok r => ⟨[], 1, r⟩
    | .fail rl msg =>
      if rem = 0 then ⟨[], 1, ⟨false, 0, msg, .none, .none, Option.none⟩⟩
      else
        let rest := classifyOneAux f (attempt + 1) rem
        ⟨(if rl then 2 ^ attempt else 1) :: rest.sleeps, rest.attempts + 1, rest.verdict⟩

/-- Embedding of `_classify_one` (filter.py lines 122-159); the candidate
pass-through is kept by the caller.  Default `max_retries = 3`. -/
def classifyOne (f : Nat → AttemptOutcome) (maxRetries : Nat := 3) : RunResult :=
  classifyOneAux f 0 maxRetries

/-! ### The orchestrator `filter_candidates_async` -/

/-- Embedding of the `PersonResult` dataclass (searcher.py lines 11-21). -/
structure PersonResult where
  name : String
  linkedin_url : String
  title : String
  highlights : List String := []
  text : String := ""
  published_date : String := ""
  image : String := ""
  score : ℚ := 0

abbrev Outcome := PersonResult × FilterResult

/-- The matched/rejected partition loop of `filter_candidates_async`
(filter.py lines 186-194). -/
def partitionResults (results : List Outcome) (threshold : ℚ) :
    List Outcome × List Outcome :=
  results.foldl
    (fun acc o =>
      if o.2.match' && decide (threshold ≤ o.2.confidence) then (acc.1 ++ [o], acc.2)
      else (acc.1, acc.2 ++ [o]))
    ([], [])

/-- The credential environment seen by `_get_openrouter_key`:
`envKey` is the value of `OPENROUTER_API_KEY` in `os.environ` (if set), and
`dotenvFiles` describes each searched `.env` path in order —
`Option.none` when the path does not exist, `some Option.none` when the
file exists but has no `OPENROUTER_API_KEY` entry, and `some (some v)`
when it sets the key to `v`. -/
structure CredEnv where
  envKey : Option String
  dotenvFiles : List (Option (Option String))

/-- The `.env` search loop of `_get_openrouter_key` (filter.py lines
49-57).  `load_dotenv` does not override a variable already present in the
environment. -/
def getKeyFromFiles (env : Option String) :
    List (Option (Option String)) → Except String String
  | [] =>
    .error "OPENROUTER_API_KEY not found. Set it in .env or as an environment variable."
  | fo :: rest =>
    match fo with
    | Option.none => getKeyFromFiles env rest
    | some entry =>
      let env1 :=
        match env, entry with
        | Option.none, some v => some v
        | e, _ => e
      if env1.getD "" != "" then .ok (env1.getD "") else getKeyFromFiles env1 rest

/-- Embedding of `_get_openrouter_key` (filter.py lines 41-57); the raised
`RuntimeError` is modelled by `Except.error`. -/
def getOpenrouterKey (env : CredEnv) : Except String String :=
  if env.envKey.getD "" != "" then .ok (env.envKey.getD "")
  else getKeyFromFiles env.envKey env.dotenvFiles

/-- The exact message of the `RuntimeError` raised by
`_get_openrouter_key` (filter.py lines 55-57). -/
def missingKeyMessage : String :=
  "OPENROUTER_API_KEY not found. Set it in .env or as an environment variable."

/-- The per-candidate task list built by `filter_candidates_async`
(filter.py lines 180-183): one `_classify_one` invocation per candidate, in
input order.  `traces i` is the network trace seen by the worker of the
candidate at position `i`. -/
def classifyTasksGo (traces : Nat → Nat → AttemptOutcome) (i : Nat) :
    List PersonResult → List Outcome
  | [] => []
  | p :: rest => (p, (classifyOne (traces i)).verdict) :: classifyTasksGo traces (i + 1) rest

def classifyTasks (candidates : List PersonResult)
    (traces : Nat → Nat → AttemptOutcome) : List Outcome :=
  classifyTasksGo traces 0 candidates

/-- Embedding of `filter_candidates_async` (filter.py lines 162-194):
resolve the credential (failing fast), classify every candidate, partition
by the confidence threshold.  `Except.error` models the propagated
`RuntimeError`. -/
def filterCandidatesAsync (env : CredEnv) (candidates : List PersonResult)
    (traces : Nat → Nat → AttemptOutcome) (threshold : ℚ) :
    Except String (List Outcome × List Outcome) :=
  match getOpenrouterKey env with
  | .error e => .error e
  | .ok _ => .ok (partitionResults (classifyTasks candidates traces) threshold)

/-- `asyncio.gather` modelled with an explicit completion order: result
slots are pre-sized, and each completing task writes its value into the
slot of its original position.  `order` is the sequence of task indices in
completion order. -/
def gatherSlots (tasks : List Outcome) (order : List Nat) : List (Option Outcome) :=
  order.foldl
    (fun acc i =>
      match tasks.get? i with
      | some v => acc.set i (some v)
      | Option.none => acc)
    (List.replicate tasks.length Option.none)

/-! ### Semaphore-bounded scheduling of the workers

Small-step model of the concurrent execution of `_classify_one` workers
sharing the `asyncio.Semaphore` created in `filter_candidates_async`
(filter.py line 178).  In the code the whole retry loop sits inside
`async with semaphore:`, so a worker acquires the permit once, keeps it
through request attempts and back-off sleeps, and releases it when it
returns. -/

inductive WState where
  | waiting
  | requesting (attempt : Nat)
  | sleeping (attempt : Nat)
  | done (r : FilterResult)

structure PoolState where
  workers : List WState
  sem : Nat

/-- One scheduler step: worker `i` acquires the permit, finishes a request
attempt (returning, or moving to its back-off sleep), or wakes from a
back-off sleep.  `f i a` is the outcome of worker `i`'s attempt `a`. -/
inductive SemStep (f : Nat → Nat → AttemptOutcome) (maxRetries : Nat) :
    PoolState → PoolState → Prop where
  | acquire (i : Nat) (ws : List WState) (s : Nat) :
      ws.get? i = some .waiting →
      SemStep f maxRetries ⟨ws, s + 1⟩ ⟨ws.set i (.requesting 0), s⟩
  | finishOk (i a : Nat) (r : FilterResult) (ws : List WState) (s : Nat) :
      ws.get? i = some (.requesting a) →
      evalAttempt (f i a) = .ok r →
      SemStep f maxRetries ⟨ws, s⟩ ⟨ws.set i (.done r), s + 1⟩
  | failRetry (i a : Nat) (rl : Bool) (msg : String) (ws : List WState) (s : Nat) :
      ws.get? i = some (.requesting a) →
      evalAttempt (f i a) = .fail rl msg →
      a + 1 < maxRetries →
      SemStep f maxRetries ⟨ws, s⟩ ⟨ws.set i (.sleeping a), s⟩
  | failTerminal (i a : Nat) (rl : Bool) (msg : String) (ws : List WState) (s : Nat) :
      ws.get? i = some (.requesting a) →
      evalAttempt (f i a) = .fail rl msg →
      ¬ a + 1 < maxRetries →
      SemStep f maxRetries ⟨ws, s⟩
        ⟨ws.set i (.done ⟨false, 0, msg, .none, .none, Option.none⟩), s + 1⟩
  | wake (i a : Nat) (ws : List WState) (s : Nat) :
      ws.get? i = some (.sleeping a) →
      SemStep f maxRetries ⟨ws, s⟩ ⟨ws.set i (.requesting (a + 1)), s⟩

/-- Initial pool: `n` workers submitted, semaphore at `concurrency`. -/
def initPool (n concurrency : Nat) : PoolState :=
  ⟨List.replicate n .waiting, concurrency⟩

def holdsPermit : WState → Bool
  | .requesting _ => true
  | .sleeping _ => true
  | _ => false

/-- A worker whose classification request is currently in flight. -/
def inFlight : WState → Bool
  | .requesting _ => true
  | _ => false

def Reachable (f : Nat → Nat → AttemptOutcome) (maxRetries n concurrency : Nat)
    (c : PoolState) : Prop :=
  Relation.ReflTransGen (SemStep f maxRetries) (initPool n concurrency) c

/-- The semaphore-accounting invariant: free permits plus permits held by
workers equal the concurrency limit. -/
def permitInvariant (concurrency : Nat) (c : PoolState) : Prop :=
  c.sem + c.workers.countP holdsPermit = concurrency

/-! ### Auxiliary predicates and concrete fixtures -/

/-- The matched-side test of the partition loop (filter.py line 189). -/
def matchPred (threshold : ℚ) (o : Outcome) : Bool :=
  o.2.match' && decide (threshold ≤ o.2.confidence)

def isFailB : AttemptRes → Bool
  | .fail _ _ => true
  | .ok _ => false

/-- A network that rate-limits every attempt of every worker. -/
def rlTraces : Nat → Nat → AttemptOutcome := fun _ _ => .rateLimit

def keyEnvOk : CredEnv := ⟨some "sk-or-v1-test", []⟩

def keyEnvMissing : CredEnv := ⟨Option.none, [Option.none, some Option.none]⟩

def personA : PersonResult :=
  ⟨"Ada", "https://linkedin.com/in/ada", "Engineer", [], "", "", "", 0⟩

def personB : PersonResult :=
  ⟨"Bob", "https://linkedin.com/in/bob", "Analyst", [], "", "", "", 0⟩

def verdictJsonA : String :=
  "\x7b\"match\": true, \"confidence\": 0.6, \"reason\": \"fit\"\x7d"

def verdictJsonB : String :=
  "\x7b\"match\": true, \"confidence\": 0.4, \"reason\": \"weak\"\x7d"

def tracesAB : Nat → Nat → AttemptOutcome := fun i _ =>
  if i = 0 then .success verdictJsonA else .success verdictJsonB

def outcomeA : Outcome := (personA, ⟨true, mkRat 3 5, "fit", .none, .none, Option.none⟩)

def outcomeB : Outcome := (personB, ⟨true, mkRat 2 5, "weak", .none, .none, Option.none⟩)

def goodJson : String :=
  "\x7b\"match\": true, \"confidence\": 0.9, \"reason\": \"ok\"\x7d"

def wellFormedJson : String :=
  "  \x7b\"match\": true, \"confidence\": 0.9, \"reason\": \"senior fit\", \"current_company\": \"Acme\", \"current_role\": null, \"graduation_year\": \"2021\"\x7d  "

def gradYearJson : String :=
  "\x7b\"match\": true, \"confidence\": 1, \"graduation_year\": 2020\x7d"

/-- A response string wrapped in a markdown code fence: a leading fence
line and a trailing fence line. -/
def fenceWrap (s : String) : String :=
  String.mk (backtickChar :: backtickChar :: backtickChar :: '\n' ::
    (s.data ++ '\n' :: backtickChar :: backtickChar :: backtickChar :: []))

/-! ## Structural lemmas -/

theorem partitionResults_foldl (threshold : ℚ) :
    ∀ (results : List Outcome) (acc : List Outcome × List Outcome),
      results.foldl
        (fun acc o =>
          if o.2.match' && decide (threshold ≤ o.2.confidence) then (acc.1 ++ [o], acc.2)
          else (acc.1, acc.2 ++ [o]))
        acc =
      (acc.1 ++ results.filter (matchPred threshold),
       acc.2 ++ results.filter (fun o => !matchPred threshold o)) := by
  intro results
  induction results with
  | nil => intro acc; simp
  | cons o rest ih =>
    intro acc
    cases hp : matchPred threshold o with
    | true =>
      have hp2 : (o.2.match' && decide (threshold ≤ o.2.confidence)) = true := hp
      have hnp : ¬ ((!matchPred threshold o) = true) := by rw [hp]; simp
      rw [List.foldl_cons, if_pos hp2, ih, List.filter_cons, List.filter_cons,
        if_pos hp, if_neg hnp]
      simp [List.append_assoc]
    | false =>
      have hp2 : ¬ ((o.2.match' && decide (threshold ≤ o.2.confidence)) = true) := by
        have : (o.2.match' && decide (threshold ≤ o.2.confidence)) = false := hp
        rw [this]; simp
      have hpos : (!matchPred threshold o) = true := by rw [hp]; rfl
      have hneg : ¬ (matchPred threshold o = true) := by rw [hp]; simp
      rw [List.foldl_cons, if_neg hp2, ih, List.filter_cons, List.filter_cons,
        if_neg hneg, if_pos hpos]
      simp [List.append_assoc]

/-- The partition loop of `filter_candidates_async` keeps, in order, the
outcomes passing the threshold test on the left and the rest on the
right. -/
theorem partitionResults_eq (results : List Outcome) (threshold : ℚ) :
    partitionResults results threshold =
      (results.filter (matchPred threshold),
       results.filter (fun o => !matchPred threshold o)) := by
  simpa [partitionResults] using partitionResults_foldl threshold results ([], [])

theorem classifyTasksGo_map_fst (traces : Nat → Nat → AttemptOutcome) :
    ∀ (cands : List PersonResult) (i : Nat),
      (classifyTasksGo traces i cands).map Prod.fst = cands := by
  intro cands
  induction cands with
  | nil => intro i; rfl
  | cons p rest ih => intro i; simp [classifyTasksGo, ih]

theorem classifyTasks_map_fst (cands : List PersonResult)
    (traces : Nat → Nat → AttemptOutcome) :
    (classifyTasks cands traces).map Prod.fst = cands :=
  classifyTasksGo_map_fst traces cands 0

theorem matchPred_iff (threshold : ℚ) (o : Outcome) :
    matchPred threshold o = true ↔ o.2.match' = true ∧ threshold ≤ o.2.confidence := by
  simp [matchPred]

/-- C1: for every credential environment, candidate list, network trace and
threshold on which `filter_candidates_async` returns, the two returned
lists partition the classified outcomes: together they are a permutation
of the per-candidate outcome list (so every input candidate appears
exactly once over the two outputs), and an outcome lands in `matched` iff
its verdict has `match = true` and `confidence ≥ threshold` (inclusive
boundary), `rejected` iff not. -/
theorem c1_classify_all_partition (env : CredEnv) (cands : List PersonResult)
    (traces : Nat → Nat → AttemptOutcome) (threshold : ℚ)
    (m r : List Outcome)
    (h : filterCandidatesAsync env cands traces threshold = .ok (m, r)) :
    ((m ++ r).map Prod.fst).Perm cands ∧
    (m ++ r).Perm (classifyTasks cands traces) ∧
    (∀ o : Outcome,
      o ∈ m ↔ o ∈ classifyTasks cands traces ∧
        (o.2.match' = true ∧ threshold ≤ o.2.confidence)) ∧
    (∀ o : Outcome,
      o ∈ r ↔ o ∈ classifyTasks cands traces ∧
        ¬(o.2.match' = true ∧ threshold ≤ o.2.confidence)) := by
  unfold filterCandidatesAsync at h
  cases hk : getOpenrouterKey env with
  | error e => rw [hk] at h; exact absurd h (by simp)
  | ok key =>
    rw [hk] at h
    have hmr : partitionResults (classifyTasks cands traces) threshold = (m, r) := by
      injection h with h1
    rw [partitionResults_eq] at hmr
    have hm : m = (classifyTasks cands traces).filter (matchPred threshold) :=
      (congrArg Prod.fst hmr).symm
    have hr : r = (classifyTasks cands traces).filter
        (fun o => !matchPred threshold o) :=
      (congrArg Prod.snd hmr).symm
    subst hm; subst hr
    have hperm :
        ((classifyTasks cands traces).filter (matchPred threshold) ++
          (classifyTasks cands traces).filter (fun o => !matchPred threshold o)).Perm
          (classifyTasks cands traces) :=
      List.filter_append_perm _ _
    refine ⟨?_, hperm, ?_, ?_⟩
    · have := hperm.map Prod.fst
      rwa [classifyTasks_map_fst] at this
    · intro o
      rw [List.mem_filter, matchPred_iff]
    · intro o
      rw [List.mem_filter]
      refine and_congr_right fun _ => ?_
      rw [Bool.not_eq_true']
      rw [← Bool.not_eq_true]
      exact not_congr (matchPred_iff threshold o)

/-- C1 witness: two candidates, one classified at exactly the threshold
(0.6, inclusive boundary, matched) and one below it (rejected). -/
theorem c1_witness :
    filterCandidatesAsync keyEnvOk [personA, personB] tracesAB (mkRat 3 5) =
      .ok ([outcomeA], [outcomeB]) ∧
    ((([outcomeA] : List Outcome) ++ [outcomeB]).map Prod.fst).Perm [personA, personB] ∧
    (([outcomeA] : List Outcome) ++ [outcomeB]).Perm (classifyTasks [personA, personB] tracesAB) ∧
    (∀ o : Outcome,
      o ∈ ([outcomeA] : List Outcome) ↔ o ∈ classifyTasks [personA, personB] tracesAB ∧
        (o.2.match' = true ∧ mkRat 3 5 ≤ o.2.confidence)) ∧
    (∀ o : Outcome,
      o ∈ ([outcomeB] : List Outcome) ↔ o ∈ classifyTasks [personA, personB] tracesAB ∧
        ¬(o.2.match' = true ∧ mkRat 3 5 ≤ o.2.confidence)) := by
  have h : filterCandidatesAsync keyEnvOk [personA, personB] tracesAB (mkRat 3 5) =
      .ok ([outcomeA], [outcomeB]) := by rfl
  exact ⟨h, c1_classify_all_partition keyEnvOk [personA, personB] tracesAB (mkRat 3 5)
    [outcomeA] [outcomeB] h⟩

theorem get?_set_self (l : List α) (i : Nat) (a : α) (h : i < l.length) :
    (l.set i a).get? i = some a := by
  induction l generalizing i with
  | nil => simp at h
  | cons x xs ih =>
    cases i with
    | zero => rfl
    | succ j =>
      simp only [List.set, List.get?]
      exact ih j (by simpa using h)

theorem get?_set_ne (l : List α) (i j : Nat) (a : α) (h : i ≠ j) :
    (l.set i a).get? j = l.get? j := by
  induction l generalizing i j with
  | nil => simp
  | cons x xs ih =>
    cases i with
    | zero =>
      cases j with
      | zero => exact absurd rfl h
      | succ k => rfl
    | succ i2 =>
      cases j with
      | zero => rfl
      | succ k =>
        simp only [List.set, List.get?]
        exact ih i2 k (by omega)

theorem gatherSlots_length_foldl (tasks : List Outcome) :
    ∀ (order : List Nat) (acc : List (Option Outcome)),
      (order.foldl
        (fun acc i =>
          match tasks.get? i with
          | some v => acc.set i (some v)
          | Option.none => acc)
        acc).length = acc.length := by
  intro order
  induction order with
  | nil => intro acc; rfl
  | cons i rest ih =>
    intro acc
    rw [List.foldl_cons, ih]
    cases tasks.get? i <;> simp

theorem gatherSlots_get?_not_mem (tasks : List Outcome) :
    ∀ (order : List Nat) (acc : List (Option Outcome)) (j : Nat), j ∉ order →
      (order.foldl
        (fun acc i =>
          match tasks.get? i with
          | some v => acc.set i (some v)
          | Option.none => acc)
        acc).get? j = acc.get? j := by
  intro order
  induction order with
  | nil => intro acc j _; rfl
  | cons i rest ih =>
    intro acc j hj
    have hji : i ≠ j := fun h => hj (h ▸ List.mem_cons_self i rest)
    have hjr : j ∉ rest := fun h => hj (List.mem_cons_of_mem i h)
    rw [List.foldl_cons, ih _ j hjr]
    cases hv : tasks.get? i with
    | none => rfl
    | some v => exact get?_set_ne acc i j (some v) hji

theorem gatherSlots_get?_mem (tasks : List Outcome) :
    ∀ (order : List Nat) (acc : List (Option Outcome)),
      acc.length = tasks.length →
      ∀ j v, j ∈ order → tasks.get? j = some v →
        (order.foldl
          (fun acc i =>
            match tasks.get? i with
            | some v => acc.set i (some v)
            | Option.none => acc)
          acc).get? j = some (some v) := by
  intro order
  induction order with
  | nil => intro acc _ j v hj; exact absurd hj (List.not_mem_nil j)
  | cons i rest ih =>
    intro acc hlen j v hj hv
    by_cases hjr : j ∈ rest
    · rw [List.foldl_cons]
      refine ih _ ?_ j v hjr hv
      cases hvi : tasks.get? i <;> simp [hlen]
    · have hji : j = i := by
        rcases List.mem_cons.mp hj with h | h
        · exact h
        · exact absurd h hjr
      subst hji
      rw [List.foldl_cons, hv, gatherSlots_get?_not_mem tasks rest _ j hjr]
      refine get?_set_self acc j (some v) ?_
      rw [hlen]
      by_contra hge
      rw [List.get?_eq_none.mpr (by omega)] at hv
      exact Option.noConfusion hv

/-- Gathering by any completion order that covers every task index
reproduces the task list in original input order. -/
theorem gatherSlots_eq_of_cover (tasks : List Outcome) (order : List Nat)
    (hcov : ∀ j, j < tasks.length → j ∈ order) :
    gatherSlots tasks order = tasks.map some := by
  apply List.ext_get?
  intro j
  by_cases hj : j < tasks.length
  · cases hv : tasks.get? j with
    | none =>
      rw [List.get?_eq_none] at hv
      omega
    | some v =>
      rw [gatherSlots, gatherSlots_get?_mem tasks order _ (by simp) j v (hcov j hj) hv]
      rw [List.get?_map, hv]
      rfl
  · have h1 : (gatherSlots tasks order).get? j = Option.none := by
      rw [List.get?_eq_none]
      rw [gatherSlots, gatherSlots_length_foldl]
      simp
      omega
    have h2 : (tasks.map some).get? j = Option.none := by
      rw [List.get?_eq_none]
      simp
      omega
    rw [h1, h2]

/-- C2: the two output collections of `filter_candidates_async` follow the
original input candidate order, not completion order: gathering worker
results by any completion order that covers every task yields exactly the
input-order outcome list, and the matched and rejected lists are sublists
of that input-order list (so each preserves the candidates' relative input
order). -/
theorem c2_input_order (cands : List PersonResult)
    (traces : Nat → Nat → AttemptOutcome) (threshold : ℚ) (order : List Nat)
    (hcov : ∀ j, j < (classifyTasks cands traces).length → j ∈ order) :
    gatherSlots (classifyTasks cands traces) order =
      (classifyTasks cands traces).map some ∧
    ((partitionResults (classifyTasks cands traces) threshold).1.map Prod.fst).Sublist
      cands ∧
    ((partitionResults (classifyTasks cands traces) threshold).2.map Prod.fst).Sublist
      cands := by
  refine ⟨gatherSlots_eq_of_cover _ order hcov, ?_, ?_⟩
  · rw [partitionResults_eq]
    have h1 : ((classifyTasks cands traces).filter (matchPred threshold)).Sublist
        (classifyTasks cands traces) := List.filter_sublist _
    have h2 := h1.map Prod.fst
    rwa [classifyTasks_map_fst] at h2
  · rw [partitionResults_eq]
    have h1 : ((classifyTasks cands traces).filter
        (fun o => !matchPred threshold o)).Sublist (classifyTasks cands traces) :=
      List.filter_sublist _
    have h2 := h1.map Prod.fst
    rwa [classifyTasks_map_fst] at h2

/-- C2 witness: two candidates completing in reversed order `[1, 0]` still
gather to the input-order outcome list. -/
theorem c2_witness :
    gatherSlots (classifyTasks [personA, personB] tracesAB) [1, 0] =
      (classifyTasks [personA, personB] tracesAB).map some ∧
    ((partitionResults (classifyTasks [personA, personB] tracesAB) (mkRat 3 5)).1.map
      Prod.fst).Sublist [personA, personB] ∧
    ((partitionResults (classifyTasks [personA, personB] tracesAB) (mkRat 3 5)).2.map
      Prod.fst).Sublist [personA, personB] :=
  c2_input_order [personA, personB] tracesAB (mkRat 3 5) [1, 0]
    (by intro j hj; simp only [show (classifyTasks [personA, personB] tracesAB).length = 2
      from rfl] at hj; interval_cases j <;> simp)

theorem classifyOneAux_attempts_le (f : Nat → AttemptOutcome) :
    ∀ (rem a : Nat), (classifyOneAux f a rem).attempts ≤ rem := by
  intro rem
  induction rem with
  | zero => intro a; exact Nat.le_refl 0
  | succ rem2 ih =>
    intro a
    rw [classifyOneAux]
    cases evalAttempt (f a) with
    | ok r => exact Nat.succ_le_succ (Nat.zero_le rem2)
    | fail rl msg =>
      dsimp only
      by_cases h0 : rem2 = 0
      · rw [if_pos h0]; dsimp only; omega
      · rw [if_neg h0]
        dsimp only
        have := ih (a + 1)
        omega

theorem classifyOneAux_success (f : Nat → AttemptOutcome) (a rem : Nat)
    (r : FilterResult) (h : evalAttempt (f a) = .ok r) :
    classifyOneAux f a (rem + 1) = ⟨[], 1, r⟩ := by
  rw [classifyOneAux, h]

theorem classifyOneAux_short_circuit (f : Nat → AttemptOutcome) :
    ∀ (n : Nat) (a rem : Nat) (r : FilterResult), n < rem →
      (∀ j, j < n → isFailB (evalAttempt (f (a + j))) = true) →
      evalAttempt (f (a + n)) = .ok r →
      (classifyOneAux f a rem).attempts = n + 1 ∧
        (classifyOneAux f a rem).verdict = r := by
  intro n
  induction n with
  | zero =>
    intro a rem r hlt _ hok
    obtain ⟨rem2, rfl⟩ : ∃ rem2, rem = rem2 + 1 := ⟨rem - 1, by omega⟩
    rw [classifyOneAux]
    rw [Nat.add_zero] at hok
    rw [hok]
    exact ⟨rfl, rfl⟩
  | succ n2 ih =>
    intro a rem r hlt hfail hok
    obtain ⟨rem2, rfl⟩ : ∃ rem2, rem = rem2 + 1 := ⟨rem - 1, by omega⟩
    have hfa : isFailB (evalAttempt (f a)) = true := by
      have := hfail 0 (Nat.succ_pos n2)
      simpa using this
    rw [classifyOneAux]
    cases hev : evalAttempt (f a) with
    | ok r2 => rw [hev] at hfa; exact absurd hfa (by simp [isFailB])
    | fail rl msg =>
      have hrem2 : rem2 ≠ 0 := by omega
      dsimp only
      rw [if_neg hrem2]
      dsimp only
      have ihh := ih (a + 1) rem2 r (by omega)
        (fun j hj => by
          have := hfail (j + 1) (by omega)
          simpa [Nat.add_assoc, Nat.add_comm 1 j] using this)
        (by
          have : a + 1 + n2 = a + (n2 + 1) := by omega
          rw [this]
          exact hok)
      exact ⟨by simp [ihh.1], by simp [ihh.2]⟩

/-- The terminal rate-limit `FilterResult` (filter.py lines 148-150). -/
def rateLimitedResult : FilterResult :=
  ⟨false, 0, "Rate limited after retries", .none, .none, Option.none⟩

theorem classifyOneAux_all_rl (f : Nat → AttemptOutcome)
    (hf : ∀ n, f n = .rateLimit) :
    ∀ (k a : Nat),
      classifyOneAux f a (k + 1) =
        ⟨(List.range k).map (fun i => 2 ^ (a + i)), k + 1, rateLimitedResult⟩ := by
  intro k
  induction k with
  | zero =>
    intro a
    rw [classifyOneAux, hf a]
    rfl
  | succ k2 ih =>
    intro a
    rw [classifyOneAux, hf a]
    have hk2 : k2 + 1 ≠ 0 := Nat.succ_ne_zero k2
    simp only [evalAttempt, if_neg hk2, ih (a + 1)]
    refine congrArg (fun l => RunResult.mk l (k2 + 1 + 1) rateLimitedResult) ?_
    rw [List.range_succ_eq_map]
    simp only [List.map_cons, List.map_map, Nat.add_zero, if_pos]
    refine congrArg (List.cons (2 ^ a)) ?_
    apply List.map_congr_left
    intro i _
    simp only [Function.comp]
    refine congrArg (fun t => 2 ^ t) ?_
    omega

theorem classifyOneAux_all_api (f : Nat → AttemptOutcome) (msg : String)
    (hf : ∀ n, f n = .apiError msg) :
    ∀ (k a : Nat),
      classifyOneAux f a (k + 1) =
        ⟨List.replicate k 1, k + 1,
         ⟨false, 0, "API error: " ++ msg, .none, .none, Option.none⟩⟩ := by
  intro k
  induction k with
  | zero =>
    intro a
    rw [classifyOneAux, hf a]
    rfl
  | succ k2 ih =>
    intro a
    rw [classifyOneAux, hf a]
    have hk2 : k2 + 1 ≠ 0 := Nat.succ_ne_zero k2
    simp only [evalAttempt, if_neg hk2, ih (a + 1)]
    rfl

/-- C3 (amended): `_classify_one` always resolves to a verdict (the
embedding is a total function); it makes at most `max_retries` attempts;
a successful attempt short-circuits the remaining retries; when every
attempt rate-limits it sleeps `2^attempt` seconds before each next attempt
(`1s, 2s, ...`, strictly increasing) and returns the terminal verdict
`match=false, confidence=0.0, reason="Rate limited after retries"`; when
every attempt fails with another error it sleeps a fixed `1s` each time
and returns `match=false, confidence=0.0` with a reason containing the
error description. -/
theorem c3_retry_behavior :
    (∀ (f : Nat → AttemptOutcome) (k : Nat), (classifyOne f k).attempts ≤ k) ∧
    (∀ (f : Nat → AttemptOutcome) (maxR n : Nat) (r : FilterResult), n < maxR →
      (∀ j, j < n → isFailB (evalAttempt (f j)) = true) →
      evalAttempt (f n) = .ok r →
      (classifyOne f maxR).attempts = n + 1 ∧ (classifyOne f maxR).verdict = r) ∧
    (∀ (f : Nat → AttemptOutcome) (k : Nat), (∀ n, f n = .rateLimit) →
      classifyOne f (k + 1) =
        ⟨(List.range k).map (fun i => 2 ^ i), k + 1, rateLimitedResult⟩ ∧
      List.Chain' (fun x y => x < y) (classifyOne f (k + 1)).sleeps) ∧
    (∀ (f : Nat → AttemptOutcome) (msg : String) (k : Nat),
      (∀ n, f n = .apiError msg) →
      classifyOne f (k + 1) =
        ⟨List.replicate k 1, k + 1,
         ⟨false, 0, "API error: " ++ msg, .none, .none, Option.none⟩⟩) := by
  refine ⟨?_, ?_, ?_, ?_⟩
  · intro f k
    exact classifyOneAux_attempts_le f k 0
  · intro f maxR n r hlt hfail hok
    exact classifyOneAux_short_circuit f n 0 maxR r hlt
      (fun j hj => by simpa using hfail j hj)
      (by simpa using hok)
  · intro f k hf
    have h := classifyOneAux_all_rl f hf k 0
    have h0 : classifyOne f (k + 1) =
        ⟨(List.range k).map (fun i => 2 ^ i), k + 1, rateLimitedResult⟩ := by
      rw [classifyOne, h]
      simp
    refine ⟨h0, ?_⟩
    rw [h0]
    apply List.Pairwise.chain'
    rw [List.pairwise_map]
    refine (List.pairwise_lt_range k).imp ?_
    intro i j hij
    exact Nat.pow_lt_pow_right (by omega) hij
  · intro f msg k hf
    have h := classifyOneAux_all_api f msg hf k 0
    rw [classifyOne, h]

/-- C3 counterexample: the terminal rate-limit sentinel produced by the
code is `"Rate limited after retries"` (capital R), not the
`"rate limited after retries"` stated in the claim. -/
theorem c3_counterexample :
    (classifyOne (fun _ => AttemptOutcome.rateLimit) 3).verdict.reason =
      "Rate limited after retries" ∧
    "Rate limited after retries" ≠ "rate limited after retries" :=
  ⟨rfl, by decide⟩

/-- C3 witness: three rate-limited attempts sleep 1s then 2s and end in the
terminal verdict; three generic failures sleep 1s each; a success at the
second attempt stops after two attempts. -/
theorem c3_witness :
    classifyOne (fun _ => AttemptOutcome.rateLimit) 3 =
      ⟨[1, 2], 3, rateLimitedResult⟩ ∧
    classifyOne (fun _ => AttemptOutcome.apiError "boom") 3 =
      ⟨[1, 1], 3, ⟨false, 0, "API error: boom", .none, .none, Option.none⟩⟩ ∧
    (classifyOne
      (fun n => if n = 1 then AttemptOutcome.success goodJson
                else AttemptOutcome.rateLimit) 3).attempts = 2 := by
  refine ⟨?_, ?_, ?_⟩
  · exact ((c3_retry_behavior.2.2.1 (fun _ => AttemptOutcome.rateLimit) 2
      (fun _ => rfl)).1).trans rfl
  · exact (c3_retry_behavior.2.2.2 (fun _ => AttemptOutcome.apiError "boom") "boom" 2
      (fun _ => rfl)).trans rfl
  · refine (c3_retry_behavior.2.1
      (fun n => if n = 1 then AttemptOutcome.success goodJson
                else AttemptOutcome.rateLimit) 3 1
      ⟨true, mkRat 9 10, "ok", .none, .none, Option.none⟩ (by omega) ?_ ?_).1
    · intro j hj
      have hj0 : j = 0 := by omega
      subst hj0
      rfl
    · rfl

/-- C4 (amended): `_parse_response` recovers every input whose normalized
text fails JSON decoding, returning — instead of raising — a verdict with
`match=false`, `confidence=0.0` and a non-empty failure reason. -/
theorem c4_parse_recovery (t : String)
    (h : jsonLoads (normalizeText t) = Option.none) :
    parseResponse t =
      .ok ⟨false, 0, "Failed to parse LLM response", .none, .none, Option.none⟩ ∧
    "Failed to parse LLM response" ≠ "" := by
  constructor
  · rw [parseResponse, h]
    rfl
  · decide

/-- C4 witness: a plainly non-JSON input is recovered into the failure
verdict. -/
theorem c4_witness :
    jsonLoads (normalizeText "not json at all") = Option.none ∧
    parseResponse "not json at all" =
      .ok ⟨false, 0, "Failed to parse LLM response", .none, .none, Option.none⟩ ∧
    "Failed to parse LLM response" ≠ "" :=
  ⟨rfl, c4_parse_recovery "not json at all" rfl⟩

/-- C4 counterexample: `_parse_response` is not exception-free for every
input text.  `"[1]"` decodes to a JSON list, so `data.get` raises
`AttributeError`; a JSON object whose `confidence` value is a non-numeric
string makes `float(...)` raise `ValueError`.  Both escape
`_parse_response` (they are caught only by the retry loop around it). -/
theorem c4_counterexample :
    parseResponse "[1]" = .error "AttributeError: object has no attribute get" ∧
    parseResponse "\x7b\"confidence\": \"high\"\x7d" =
      .error "ValueError: could not convert string to float" :=
  ⟨rfl, rfl⟩

/-- C5 (amended): on successful JSON parse of an object, the coercions of
`_parse_response` are: `match` is the Python truthiness of the value
(`false` when the key is absent), `confidence` defaults to `0.0` and is
`float`-coerced (which raises on non-coercible values — see C4),
`reason` is `str`-coerced with default `""`, `current_company` and
`current_role` are passed through verbatim by `dict.get` (absent becomes
`None`, but falsy present values such as `""` are kept, not nulled), and
`graduation_year` is `None` when absent or falsy and its `str` form
otherwise. -/
theorem c5_coercion (t : String) (d : List (String × PyVal)) (q : ℚ)
    (hj : jsonLoads (normalizeText t) = some (.dict d))
    (hc : pyFloat (pyDictGet d "confidence" (.float 0)) = .ok q) :
    ∃ res : FilterResult, parseResponse t = .ok res ∧
      res.match' = pyTruthy (pyDictGet d "match" (.bool false)) ∧
      res.confidence = q ∧
      res.reason = pyStrOf (pyDictGet d "reason" (.str "")) ∧
      res.current_company = pyDictGet d "current_company" PyVal.none ∧
      res.current_role = pyDictGet d "current_role" PyVal.none ∧
      (lookupLast "match" d = Option.none → res.match' = false) ∧
      (lookupLast "confidence" d = Option.none → res.confidence = 0) ∧
      (lookupLast "reason" d = Option.none → res.reason = "") ∧
      (lookupLast "current_company" d = Option.none →
        res.current_company = PyVal.none) ∧
      (pyTruthy (pyDictGet d "graduation_year" PyVal.none) = false →
        res.graduation_year = Option.none) ∧
      (pyTruthy (pyDictGet d "graduation_year" PyVal.none) = true →
        res.graduation_year =
          some (pyStrOf (pyDictGet d "graduation_year" PyVal.none))) := by
  rw [parseResponse, hj]
  rw [coerceData, hc]
  refine ⟨_, rfl, rfl, rfl, rfl, rfl, rfl, ?_, ?_, ?_, ?_, ?_, ?_⟩
  · intro hnone
    simp [pyDictGet, hnone, pyTruthy]
  · intro hnone
    rw [pyDictGet, hnone] at hc
    have : pyFloat (Option.getD Option.none (PyVal.float 0)) = .ok (0 : ℚ) := rfl
    rw [this] at hc
    exact (Except.ok.injEq _ _).mp hc.symm |>.symm ▸ rfl
  · intro hnone
    simp [pyDictGet, hnone, pyStrOf, pyRepr]
  · intro hnone
    simp [pyDictGet, hnone]
  · intro hfalse
    rw [if_neg (by rw [hfalse]; exact Bool.false_ne_true)]
  · intro htrue
    rw [if_pos htrue]

/-- C5 witness: an object with truthy `match`, integer confidence and
integer graduation year exercises the coercions. -/
theorem c5_witness :
    jsonLoads (normalizeText gradYearJson) =
      some (.dict [("match", .bool true), ("confidence", .int 1),
        ("graduation_year", .int 2020)]) ∧
    pyFloat (pyDictGet [("match", .bool true), ("confidence", .int 1),
        ("graduation_year", .int 2020)] "confidence" (.float 0)) = .ok (mkRat 1 1) ∧
    (∃ res : FilterResult, parseResponse gradYearJson = .ok res ∧
      res.match' = pyTruthy (pyDictGet [("match", .bool true), ("confidence", .int 1),
        ("graduation_year", .int 2020)] "match" (.bool false)) ∧
      res.confidence = mkRat 1 1 ∧
      res.reason = pyStrOf (pyDictGet [("match", .bool true), ("confidence", .int 1),
        ("graduation_year", .int 2020)] "reason" (.str "")) ∧
      res.current_company = pyDictGet [("match", .bool true), ("confidence", .int 1),
        ("graduation_year", .int 2020)] "current_company" PyVal.none ∧
      res.current_role = pyDictGet [("match", .bool true), ("confidence", .int 1),
        ("graduation_year", .int 2020)] "current_role" PyVal.none ∧
      (lookupLast "match" [("match", .bool true), ("confidence", .int 1),
        ("graduation_year", .int 2020)] = Option.none → res.match' = false) ∧
      (lookupLast "confidence" [("match", .bool true), ("confidence", .int 1),
        ("graduation_year", .int 2020)] = Option.none → res.confidence = 0) ∧
      (lookupLast "reason" [("match", .bool true), ("confidence", .int 1),
        ("graduation_year", .int 2020)] = Option.none → res.reason = "") ∧
      (lookupLast "current_company" [("match", .bool true), ("confidence", .int 1),
        ("graduation_year", .int 2020)] = Option.none →
        res.current_company = PyVal.none) ∧
      (pyTruthy (pyDictGet [("match", .bool true), ("confidence", .int 1),
        ("graduation_year", .int 2020)] "graduation_year" PyVal.none) = false →
        res.graduation_year = Option.none) ∧
      (pyTruthy (pyDictGet [("match", .bool true), ("confidence", .int 1),
        ("graduation_year", .int 2020)] "graduation_year" PyVal.none) = true →
        res.graduation_year =
          some (pyStrOf (pyDictGet [("match", .bool true), ("confidence", .int 1),
            ("graduation_year", .int 2020)] "graduation_year" PyVal.none)))) :=
  ⟨rfl, rfl, c5_coercion gradYearJson
    [("match", .bool true), ("confidence", .int 1), ("graduation_year", .int 2020)]
    (mkRat 1 1) rfl rfl⟩

/-- C5 counterexample: a present-but-falsy `current_company` (the empty
string) is kept verbatim by the code, not defaulted to absent/null as the
claim states. -/
theorem c5_counterexample :
    parseResponse "\x7b\"current_company\": \"\"\x7d" =
      .ok ⟨false, 0, "", PyVal.str "", PyVal.none, Option.none⟩ ∧
    pyTruthy (PyVal.str "") = false ∧
    PyVal.str "" ≠ PyVal.none :=
  ⟨rfl, rfl, fun h => PyVal.noConfusion h⟩

theorem classifyOneAux_conf_zero (f : Nat → AttemptOutcome)
    (h : ∀ n text, f n = .success text → ∀ r, parseResponse text ≠ .ok r) :
    ∀ (rem a : Nat), (classifyOneAux f a rem).verdict.confidence = 0 := by
  intro rem
  induction rem with
  | zero => intro a; rfl
  | succ rem2 ih =>
    intro a
    rw [classifyOneAux]
    cases hev : evalAttempt (f a) with
    | ok r =>
      exfalso
      cases hfa : f a with
      | success t =>
        rw [hfa, evalAttempt.eq_def] at hev
        dsimp only at hev
        cases hp : parseResponse t with
        | ok r2 =>
          exact h a t hfa r2 hp
        | error e =>
          rw [hp] at hev
          exact AttemptRes.noConfusion hev
      | rateLimit =>
        rw [hfa, evalAttempt.eq_def] at hev
        exact AttemptRes.noConfusion hev
      | apiError m =>
        rw [hfa, evalAttempt.eq_def] at hev
        exact AttemptRes.noConfusion hev
    | fail rl msg =>
      dsimp only
      by_cases h0 : rem2 = 0
      · rw [if_pos h0]
      · rw [if_neg h0]
        dsimp only
        exact ih (a + 1)

/-- C9 (amended): every verdict produced by a failure path has confidence
`0.0`, which lies in `[0, 1]`: parse failures yield confidence `0.0`, and
a worker none of whose attempts produce a successfully parsed response
returns confidence `0.0`.  (A successfully parsed response's confidence is
taken from the model unvalidated and may lie outside `[0, 1]` — see the
counterexample.) -/
theorem c9_confidence_range :
    (∀ t, jsonLoads (normalizeText t) = Option.none →
      ∃ res : FilterResult, parseResponse t = .ok res ∧
        0 ≤ res.confidence ∧ res.confidence ≤ 1) ∧
    (∀ (f : Nat → AttemptOutcome) (maxR : Nat),
      (∀ n text, f n = .success text → ∀ r, parseResponse text ≠ .ok r) →
      0 ≤ (classifyOne f maxR).verdict.confidence ∧
        (classifyOne f maxR).verdict.confidence ≤ 1) := by
  constructor
  · intro t h
    refine ⟨⟨false, 0, "Failed to parse LLM response", .none, .none, Option.none⟩,
      ?_, ?_, ?_⟩
    · rw [parseResponse, h]; rfl
    · norm_num
    · norm_num
  · intro f maxR h
    rw [classifyOne, classifyOneAux_conf_zero f h maxR 0]
    norm_num

/-- C9 witness: a non-JSON response and an always-rate-limited worker both
yield confidence `0.0 ∈ [0, 1]`. -/
theorem c9_witness :
    jsonLoads (normalizeText "garbage") = Option.none ∧
    (∃ res : FilterResult, parseResponse "garbage" = .ok res ∧
      0 ≤ res.confidence ∧ res.confidence ≤ 1) ∧
    (0 ≤ (classifyOne (fun _ => AttemptOutcome.rateLimit) 3).verdict.confidence) :=
  ⟨rfl, c9_confidence_range.1 "garbage" rfl,
    (c9_confidence_range.2 (fun _ => AttemptOutcome.rateLimit) 3
      (fun _ _ hn => AttemptOutcome.noConfusion hn)).1⟩

/-- C9 counterexample: a parsed response reporting confidence `5` is kept
as-is; the produced verdict's confidence is not in `[0, 1]`. -/
theorem c9_counterexample :
    parseResponse "\x7b\"match\": true, \"confidence\": 5\x7d" =
      .ok ⟨true, mkRat 5 1, "", PyVal.none, PyVal.none, Option.none⟩ ∧
    ¬ (mkRat 5 1 ≤ 1) :=
  ⟨rfl, by decide⟩

theorem getKeyFromFiles_all_missing :
    ∀ (files : List (Option (Option String))),
      (∀ fo ∈ files, fo = Option.none ∨ fo = some Option.none) →
      getKeyFromFiles Option.none files = .error missingKeyMessage := by
  intro files
  induction files with
  | nil => intro _; rfl
  | cons fo rest ih =>
    intro hall
    rcases hall fo (List.mem_cons_self fo rest) with h | h
    · subst h
      exact ih (fun g hg => hall g (List.mem_cons_of_mem _ hg))
    · subst h
      exact ih (fun g hg => hall g (List.mem_cons_of_mem _ hg))

/-- C7: when `OPENROUTER_API_KEY` is absent from the process environment
and from every searched `.env` file, `filter_candidates_async` fails fast
with the missing-credential error no matter the candidates, traces or
threshold (so before any classification request); and whenever the key
resolves, the run returns `ok` — the missing credential is the only error
the orchestrator propagates. -/
theorem c7_missing_credential :
    (∀ env : CredEnv, env.envKey = Option.none →
      (∀ fo ∈ env.dotenvFiles, fo = Option.none ∨ fo = some Option.none) →
      ∀ (cands : List PersonResult) (traces : Nat → Nat → AttemptOutcome)
        (threshold : ℚ),
        filterCandidatesAsync env cands traces threshold =
          .error missingKeyMessage) ∧
    (∀ (env : CredEnv) (k : String), getOpenrouterKey env = .ok k →
      ∀ (cands : List PersonResult) (traces : Nat → Nat → AttemptOutcome)
        (threshold : ℚ),
        ∃ mr, filterCandidatesAsync env cands traces threshold = .ok mr) := by
  constructor
  · intro env henv hfiles cands traces threshold
    have hkey : getOpenrouterKey env = .error missingKeyMessage := by
      rw [getOpenrouterKey, henv]
      rw [if_neg (by decide)]
      exact getKeyFromFiles_all_missing env.dotenvFiles hfiles
    rw [filterCandidatesAsync, hkey]
  · intro env k hk cands traces threshold
    refine ⟨partitionResults (classifyTasks cands traces) threshold, ?_⟩
    rw [filterCandidatesAsync, hk]

/-- C7 witness: a concrete environment with no key anywhere errors out for
a non-empty candidate list; a configured key yields an ok result. -/
theorem c7_witness :
    keyEnvMissing.envKey = Option.none ∧
    (∀ fo ∈ keyEnvMissing.dotenvFiles, fo = Option.none ∨ fo = some Option.none) ∧
    filterCandidatesAsync keyEnvMissing [personA] tracesAB (mkRat 3 5) =
      .error missingKeyMessage ∧
    getOpenrouterKey keyEnvOk = .ok "sk-or-v1-test" ∧
    (∃ mr, filterCandidatesAsync keyEnvOk [personA] tracesAB (mkRat 3 5) = .ok mr) := by
  have hfiles : ∀ fo ∈ keyEnvMissing.dotenvFiles,
      fo = Option.none ∨ fo = some Option.none := by
    intro fo hfo
    rcases List.mem_cons.mp hfo with h | h
    · exact Or.inl h
    · rcases List.mem_cons.mp h with h2 | h2
      · exact Or.inr h2
      · exact absurd h2 (List.not_mem_nil fo)
  exact ⟨rfl, hfiles,
    c7_missing_credential.1 keyEnvMissing rfl hfiles [personA] tracesAB (mkRat 3 5),
    rfl,
    c7_missing_credential.2 keyEnvOk "sk-or-v1-test" rfl [personA] tracesAB (mkRat 3 5)⟩

/-- C10: even for an empty candidate list the credential is resolved
unconditionally — with no key configured the run still raises the
missing-credential error, and with a key configured it returns two empty
lists (for every trace, i.e. without consulting the network). -/
theorem c10_empty_list :
    (∀ env : CredEnv, env.envKey = Option.none →
      (∀ fo ∈ env.dotenvFiles, fo = Option.none ∨ fo = some Option.none) →
      ∀ (traces : Nat → Nat → AttemptOutcome) (threshold : ℚ),
        filterCandidatesAsync env [] traces threshold = .error missingKeyMessage) ∧
    (∀ (env : CredEnv) (k : String), getOpenrouterKey env = .ok k →
      ∀ (traces : Nat → Nat → AttemptOutcome) (threshold : ℚ),
        filterCandidatesAsync env [] traces threshold = .ok ([], [])) := by
  constructor
  · intro env henv hfiles traces threshold
    have hkey : getOpenrouterKey env = .error missingKeyMessage := by
      rw [getOpenrouterKey, henv]
      rw [if_neg (by decide)]
      exact getKeyFromFiles_all_missing env.dotenvFiles hfiles
    rw [filterCandidatesAsync, hkey]
  · intro env k hk traces threshold
    rw [filterCandidatesAsync, hk]
    rfl

/-- C10 witness: both branches at concrete environments, with a concrete
trace function. -/
theorem c10_witness :
    filterCandidatesAsync keyEnvMissing [] tracesAB (mkRat 3 5) =
      .error missingKeyMessage ∧
    filterCandidatesAsync keyEnvOk [] tracesAB (mkRat 3 5) = .ok ([], []) := by
  have hfiles : ∀ fo ∈ keyEnvMissing.dotenvFiles,
      fo = Option.none ∨ fo = some Option.none := by
    intro fo hfo
    rcases List.mem_cons.mp hfo with h | h
    · exact Or.inl h
    · rcases List.mem_cons.mp h with h2 | h2
      · exact Or.inr h2
      · exact absurd h2 (List.not_mem_nil fo)
  exact ⟨c10_empty_list.1 keyEnvMissing rfl hfiles tracesAB (mkRat 3 5),
    c10_empty_list.2 keyEnvOk "sk-or-v1-test" rfl tracesAB (mkRat 3 5)⟩

theorem stripLeft_append (l1 l2 : List Char) :
    stripLeft (l1 ++ l2) =
      if stripLeft l1 = [] then stripLeft l2 else stripLeft l1 ++ l2 := by
  induction l1 with
  | nil => simp [stripLeft]
  | cons c rest ih =>
    cases hc : isPySpace c with
    | true =>
      rw [show stripLeft ((c :: rest) ++ l2) = stripLeft (rest ++ l2) by
        simp [stripLeft, List.dropWhile_cons, hc]]
      rw [show stripLeft (c :: rest) = stripLeft rest by
        simp [stripLeft, List.dropWhile_cons, hc]]
      exact ih
    | false =>
      rw [show stripLeft ((c :: rest) ++ l2) = c :: (rest ++ l2) by
        simp [stripLeft, List.dropWhile_cons, hc]]
      rw [show stripLeft (c :: rest) = c :: rest by
        simp [stripLeft, List.dropWhile_cons, hc]]
      rw [if_neg (by simp), List.cons_append]

theorem stripRight_append_nl (x : List Char) :
    stripRight (x ++ ['\n']) = stripRight x := by
  rw [stripRight, stripRight]
  rw [show (x ++ ['\n']).reverse = '\n' :: x.reverse by simp]
  rw [List.dropWhile_cons]
  rw [if_pos (by decide)]

theorem pyStrip_append_nl (l : List Char) :
    pyStripChars (l ++ ['\n']) = pyStripChars l := by
  rw [pyStripChars, pyStripChars, stripLeft_append]
  by_cases h : stripLeft l = []
  · rw [if_pos h, h]
    rfl
  · rw [if_neg h]
    exact stripRight_append_nl _

theorem stripLeft_fenceWrap (s : String) :
    stripLeft (fenceWrap s).data = (fenceWrap s).data := by
  rw [fenceWrap]
  show stripLeft (backtickChar :: _) = _
  simp [stripLeft, List.dropWhile_cons, show isPySpace backtickChar = false from by decide]

theorem reverse_fenceWrap (s : String) :
    (fenceWrap s).data.reverse =
      backtickChar :: backtickChar :: backtickChar :: '\n' ::
        (s.data.reverse ++ ('\n' :: backtickChar :: backtickChar :: backtickChar :: [])) := by
  rw [fenceWrap]
  show (backtickChar :: backtickChar :: backtickChar :: '\n' ::
    (s.data ++ '\n' :: backtickChar :: backtickChar :: backtickChar :: [])).reverse = _
  simp

theorem pyStrip_fenceWrap (s : String) :
    pyStripChars (fenceWrap s).data = (fenceWrap s).data := by
  rw [pyStripChars, stripLeft_fenceWrap, stripRight]
  rw [reverse_fenceWrap]
  rw [List.dropWhile_cons]
  rw [if_neg (by decide)]
  rw [← reverse_fenceWrap]
  exact List.reverse_reverse _

theorem normalize_fenceWrap (s : String) :
    normalizeText (fenceWrap s) = pyStripChars s.data := by
  have hfs : fenceStart (fenceWrap s).data = true := by
    rw [fenceWrap]
    show fenceStart (backtickChar :: backtickChar :: backtickChar :: _) = true
    simp [fenceStart]
  have hnl : containsNewline (fenceWrap s).data = true := by
    rw [fenceWrap]
    show containsNewline
      (backtickChar :: backtickChar :: backtickChar :: '\n' :: _) = true
    simp +decide [containsNewline, List.contains_cons]
  have hdrop : dropThroughNewline (fenceWrap s).data =
      s.data ++ '\n' :: backtickChar :: backtickChar :: backtickChar :: [] := by
    rw [fenceWrap]
    show dropThroughNewline
      (backtickChar :: backtickChar :: backtickChar :: '\n' :: _) = _
    simp +decide [dropThroughNewline]
  have hrev1 : (s.data ++ '\n' :: backtickChar :: backtickChar ::
      backtickChar :: []).reverse =
      backtickChar :: backtickChar :: backtickChar :: '\n' :: s.data.reverse := by
    simp
  have hfe : fenceEnd
      (s.data ++ '\n' :: backtickChar :: backtickChar :: backtickChar :: []) = true := by
    rw [fenceEnd, hrev1]
    simp [fenceStart]
  have hdl : dropLastChars 3
      (s.data ++ '\n' :: backtickChar :: backtickChar :: backtickChar :: []) =
      s.data ++ ['\n'] := by
    rw [dropLastChars, hrev1]
    show ('\n' :: s.data.reverse).reverse = _
    simp
  simp only [normalizeText]
  rw [pyStrip_fenceWrap, if_pos hfs, if_pos hnl, hdrop, if_pos hfe, hdl]
  exact pyStrip_append_nl _

theorem normalize_nofence (s : String)
    (h : fenceStart (pyStripChars s.data) = false) :
    normalizeText s = pyStripChars s.data := by
  simp only [normalizeText]
  rw [if_neg (by rw [h]; exact Bool.false_ne_true)]

/-- C6: a well-formed JSON verdict string parses to a `FilterResult` whose
field values are identical to those in the JSON, and wrapping the string
in a markdown code fence (a leading fence line and a trailing fence line)
parses identically to the unwrapped string. -/
theorem c6_round_trip (s : String) (m : Bool) (q : ℚ) (rs g : String)
    (cc cr : PyVal)
    (hfence : fenceStart (pyStripChars s.data) = false)
    (hj : jsonLoads (pyStripChars s.data) =
      some (.dict [("match", .bool m), ("confidence", .float q),
        ("reason", .str rs), ("current_company", cc), ("current_role", cr),
        ("graduation_year", .str g)]))
    (hg : g ≠ "") :
    parseResponse s = .ok ⟨m, q, rs, cc, cr, some g⟩ ∧
    parseResponse (fenceWrap s) = parseResponse s := by
  have hnorm : normalizeText s = pyStripChars s.data := normalize_nofence s hfence
  constructor
  · rw [parseResponse, hnorm, hj, coerceData]
    have hconf : pyDictGet [("match", PyVal.bool m), ("confidence", PyVal.float q),
        ("reason", PyVal.str rs), ("current_company", cc), ("current_role", cr),
        ("graduation_year", PyVal.str g)] "confidence" (.float 0) = PyVal.float q := by
      simp +decide [pyDictGet, lookupLast]
    have hmatch : pyDictGet [("match", PyVal.bool m), ("confidence", PyVal.float q),
        ("reason", PyVal.str rs), ("current_company", cc), ("current_role", cr),
        ("graduation_year", PyVal.str g)] "match" (.bool false) = PyVal.bool m := by
      simp +decide [pyDictGet, lookupLast]
    have hreason : pyDictGet [("match", PyVal.bool m), ("confidence", PyVal.float q),
        ("reason", PyVal.str rs), ("current_company", cc), ("current_role", cr),
        ("graduation_year", PyVal.str g)] "reason" (.str "") = PyVal.str rs := by
      simp +decide [pyDictGet, lookupLast]
    have hcc : pyDictGet [("match", PyVal.bool m), ("confidence", PyVal.float q),
        ("reason", PyVal.str rs), ("current_company", cc), ("current_role", cr),
        ("graduation_year", PyVal.str g)] "current_company" PyVal.none = cc := by
      simp +decide [pyDictGet, lookupLast]
    have hcr : pyDictGet [("match", PyVal.bool m), ("confidence", PyVal.float q),
        ("reason", PyVal.str rs), ("current_company", cc), ("current_role", cr),
        ("graduation_year", PyVal.str g)] "current_role" PyVal.none = cr := by
      simp +decide [pyDictGet, lookupLast]
    have hgy : pyDictGet [("match", PyVal.bool m), ("confidence", PyVal.float q),
        ("reason", PyVal.str rs), ("current_company", cc), ("current_role", cr),
        ("graduation_year", PyVal.str g)] "graduation_year" PyVal.none =
        PyVal.str g := by
      simp +decide [pyDictGet, lookupLast]
    rw [hconf, hmatch, hreason, hcc, hcr, hgy]
    have hgt : pyTruthy (PyVal.str g) = true := by
      simp [pyTruthy]
      exact hg
    rw [if_pos hgt]
    rfl
  · rw [parseResponse, parseResponse, normalize_fenceWrap, hnorm]

set_option maxRecDepth 10000 in
/-- C6 witness: a concrete well-formed verdict JSON (with surrounding
whitespace) and its fenced wrapping parse to the same verdict. -/
theorem c6_witness :
    fenceStart (pyStripChars wellFormedJson.data) = false ∧
    jsonLoads (pyStripChars wellFormedJson.data) =
      some (.dict [("match", .bool true), ("confidence", .float (mkRat 9 10)),
        ("reason", .str "senior fit"), ("current_company", .str "Acme"),
        ("current_role", .none), ("graduation_year", .str "2021")]) ∧
    "2021" ≠ "" ∧
    parseResponse wellFormedJson =
      .ok ⟨true, mkRat 9 10, "senior fit", .str "Acme", .none, some "2021"⟩ ∧
    parseResponse (fenceWrap wellFormedJson) = parseResponse wellFormedJson :=
  ⟨rfl, rfl, by decide,
    (c6_round_trip wellFormedJson true (mkRat 9 10) "senior fit" "2021"
      (.str "Acme") .none rfl rfl (by decide)).1,
    (c6_round_trip wellFormedJson true (mkRat 9 10) "senior fit" "2021"
      (.str "Acme") .none rfl rfl (by decide)).2⟩

theorem countP_set (p : WState → Bool) :
    ∀ (ws : List WState) (i : Nat) (w v : WState), ws.get? i = some w →
      (ws.set i v).countP p + (if p w then 1 else 0) =
        ws.countP p + (if p v then 1 else 0) := by
  intro ws
  induction ws with
  | nil => intro i w v h; exact absurd h (by simp)
  | cons x xs ih =>
    intro i w v h
    cases i with
    | zero =>
      have h2 : some x = some w := h
      injection h2 with h3
      subst h3
      rw [show (x :: xs).set 0 v = v :: xs from rfl]
      rw [List.countP_cons, List.countP_cons]
      omega
    | succ j =>
      have hj : xs.get? j = some w := h
      rw [show (x :: xs).set (j + 1) v = x :: xs.set j v from rfl]
      rw [List.countP_cons, List.countP_cons]
      have := ih j w v hj
      omega

theorem countP_replicate_waiting (n : Nat) :
    (List.replicate n WState.waiting).countP holdsPermit = 0 := by
  induction n with
  | zero => rfl
  | succ k ih =>
    rw [List.replicate_succ, List.countP_cons]
    simp [holdsPermit, ih]

theorem semStep_preserves_invariant (f : Nat → Nat → AttemptOutcome)
    (maxRetries : Nat) (concurrency : Nat) {c c2 : PoolState}
    (h : SemStep f maxRetries c c2)
    (hinv : permitInvariant concurrency c) : permitInvariant concurrency c2 := by
  cases h with
  | acquire i ws s hget =>
    have hc := countP_set holdsPermit ws i WState.waiting (.requesting 0) hget
    simp [holdsPermit] at hc
    rw [permitInvariant] at hinv ⊢
    simp only at hinv hc ⊢
    omega
  | finishOk i a r ws s hget _ =>
    have hc := countP_set holdsPermit ws i (.requesting a) (.done r) hget
    simp [holdsPermit] at hc
    rw [permitInvariant] at hinv ⊢
    simp only at hinv hc ⊢
    omega
  | failRetry i a rl msg ws s hget _ _ =>
    have hc := countP_set holdsPermit ws i (.requesting a) (.sleeping a) hget
    simp [holdsPermit] at hc
    rw [permitInvariant] at hinv ⊢
    simp only at hinv hc ⊢
    omega
  | failTerminal i a rl msg ws s hget _ _ =>
    have hc := countP_set holdsPermit ws i (.requesting a)
      (.done ⟨false, 0, msg, .none, .none, Option.none⟩) hget
    simp [holdsPermit] at hc
    rw [permitInvariant] at hinv ⊢
    simp only at hinv hc ⊢
    omega
  | wake i a ws s hget =>
    have hc := countP_set holdsPermit ws i (.sleeping a) (.requesting (a + 1)) hget
    simp [holdsPermit] at hc
    rw [permitInvariant] at hinv ⊢
    simp only at hinv hc ⊢
    omega

theorem reachable_invariant (f : Nat → Nat → AttemptOutcome)
    (maxRetries n concurrency : Nat) (c : PoolState)
    (h : Reachable f maxRetries n concurrency c) :
    permitInvariant concurrency c := by
  induction h with
  | refl =>
    rw [permitInvariant, initPool]
    simp only
    rw [countP_replicate_waiting]
    omega
  | tail _ hstep ih =>
    exact semStep_preserves_invariant f maxRetries concurrency hstep ih

theorem countP_inFlight_le_holds (ws : List WState) :
    ws.countP inFlight ≤ ws.countP holdsPermit := by
  induction ws with
  | nil => exact Nat.le_refl 0
  | cons w rest ih =>
    rw [List.countP_cons, List.countP_cons]
    have hwle : (if inFlight w then 1 else 0) ≤ (if holdsPermit w then 1 else 0) := by
      cases w <;> simp [inFlight, holdsPermit]
    omega

/-- C8 (amended): in every reachable state of the semaphore-scheduled
worker pool, at most `concurrency` classification requests are in flight —
the bound holds throughout the run.  (The permit, however, is held for the
whole retry loop, not released between attempts: see the
counterexample.) -/
theorem c8_concurrency_bound (f : Nat → Nat → AttemptOutcome)
    (maxRetries n concurrency : Nat) (c : PoolState)
    (h : Reachable f maxRetries n concurrency c) :
    c.workers.countP inFlight ≤ concurrency := by
  have hinv := reachable_invariant f maxRetries n concurrency c h
  rw [permitInvariant] at hinv
  have hle := countP_inFlight_le_holds c.workers
  omega

/-- C8 witness: the theorem applied to the initial pool of two workers
under concurrency limit 1. -/
theorem c8_witness :
    Reachable rlTraces 3 2 1 (initPool 2 1) ∧
    (initPool 2 1).workers.countP inFlight ≤ 1 :=
  ⟨Relation.ReflTransGen.refl,
    c8_concurrency_bound rlTraces 3 2 1 (initPool 2 1) Relation.ReflTransGen.refl⟩

/-- C8 counterexample: the permit is not released after each attempt. With
one worker and `concurrency = 1`, the state in which the worker sleeps
between its first and second attempt while still holding the only permit
(semaphore count 0) is reachable; the state the claim requires — the same
back-off sleep with the permit released (semaphore count 1) — is
unreachable.  So a retry never re-acquires the permit: `async with
semaphore:` wraps the whole retry loop. -/
theorem c8_counterexample :
    Reachable rlTraces 3 1 1 ⟨[WState.sleeping 0], 0⟩ ∧
    holdsPermit (WState.sleeping 0) = true ∧
    ¬ Reachable rlTraces 3 1 1 ⟨[WState.sleeping 0], 1⟩ := by
  refine ⟨?_, rfl, ?_⟩
  · have s1 : SemStep rlTraces 3 ⟨[WState.waiting], 1⟩ ⟨[WState.requesting 0], 0⟩ := by
      have := @SemStep.acquire rlTraces 3 0 [WState.waiting] 0 rfl
      simpa using this
    have s2 : SemStep rlTraces 3 ⟨[WState.requesting 0], 0⟩ ⟨[WState.sleeping 0], 0⟩ := by
      have := @SemStep.failRetry rlTraces 3 0 0 true
        "Rate limited after retries" [WState.requesting 0] 0 rfl rfl (by omega)
      simpa using this
    exact Relation.ReflTransGen.tail (Relation.ReflTransGen.tail
      Relation.ReflTransGen.refl s1) s2
  · intro hreach
    have hinv := reachable_invariant rlTraces 3 1 1 _ hreach
    rw [permitInvariant] at hinv
    simp only at hinv
    rw [show ([WState.sleeping 0].countP holdsPermit) = 1 from rfl] at hinv
    omega

end ExaRecruit
